import Mathlib

/-!
Shallow embedding of the toy payments engine (src/transaction.rs, src/client.rs,
src/engine.rs).  Amounts (`rust_decimal::Decimal`, an exact scaled-integer
decimal) are only ever added, subtracted and compared by the engine, and the
decimals of bounded scale form an ordered additive group isomorphic to scaled
integers, so they are modelled as `Int` (overflow of the 96-bit mantissa
aside, which no claim concerns).  The `u32`/`u16` identifiers are modelled as
`Nat` (they are only compared for equality, never computed with);
`HashMap`/`HashSet` are modelled as total functions into `Option`/`Bool`.
Rust's `&mut self` methods become state-passing functions returning the
(possibly partially mutated) state together with an `Except` result: an early
`return Err(..)` after a mutation leaves that mutation in place, exactly as in
the source.
-/

deriving instance DecidableEq for Except

namespace ToyPayments

abbrev DecimalType : Type := Int
abbrev TransactionId : Type := Nat
abbrev ClientId : Type := Nat

/-- Mirror of `TransactionKind` in src/transaction.rs. -/
inductive TransactionKind : Type where
  | Deposit (amount : DecimalType)
  | Withdrawal (amount : DecimalType)
deriving DecidableEq

/-- Mirror of `TransactionState` in src/transaction.rs. -/
inductive TransactionState : Type where
  | Normal
  | Disputed
  | ChargedBack
deriving DecidableEq

/-- Mirror of `Transaction` in src/transaction.rs. -/
structure Transaction : Type where
  txid : TransactionId
  kind : TransactionKind
  state : TransactionState
deriving DecidableEq

/-- Mirror of `EngineError` in src/engine_error.rs (the `Report` wrapper only
carries diagnostics; the engine dispatch matches on the context, which is this
enum). -/
inductive EngineError : Type where
  | InternalError
  | ClientLocked (client_id : ClientId)
  | ClientNotFound (client_id : ClientId)
  | InsufficientFunds
  | TxNotInState (txid : TransactionId) (expected : TransactionState)
      (actual : TransactionState)
  | TxNotFound (txid : TransactionId)
  | TxCannotBeDisputed (txid : TransactionId)
  | TxAlreadySeen (txid : TransactionId)
deriving DecidableEq

/-- Membership-functional model of the `HashSet<TransactionId>` of seen ids. -/
abbrev SeenTxids : Type := TransactionId → Bool

/-- Point update of a `HashSet` model: `insert`. -/
def seenInsert (s : SeenTxids) (t : TransactionId) : SeenTxids :=
  fun x => if x = t then true else s x

/-- Mirror of `Transaction::check_state_is`. -/
def Transaction.check_state_is (self : Transaction) (state : TransactionState) :
    Except EngineError Unit :=
  if self.state ≠ state then
    .error (.TxNotInState self.txid state self.state)
  else
    .ok ()

/-- Mirror of `Transaction::new`: inserts into the seen set, then fails with
`TxAlreadySeen` when the id was already present.  The returned seen set is the
set after the `insert` call (a no-op re-insert in the duplicate case). -/
def Transaction.new (seen_txids : SeenTxids) (txid : TransactionId)
    (kind : TransactionKind) : SeenTxids × Except EngineError Transaction :=
  let is_new := !(seen_txids txid)
  let seen' := seenInsert seen_txids txid
  if !is_new then
    (seen', .error (.TxAlreadySeen txid))
  else
    (seen', .ok { txid := txid, kind := kind, state := .Normal })

/-- Mirror of `Transaction::amount`. -/
def Transaction.amount (self : Transaction) : DecimalType :=
  match self.kind with
  | .Deposit amount => amount
  | .Withdrawal amount => amount

/-- Mirror of `Transaction::mark_disputed`: requires `Normal`, moves to
`Disputed`. -/
def Transaction.mark_disputed (self : Transaction) :
    Except EngineError Transaction :=
  match self.check_state_is .Normal with
  | .error e => .error e
  | .ok _ => .ok { self with state := .Disputed }

/-- Mirror of `Transaction::mark_resolved`: requires `Disputed`, moves to
`Normal`. -/
def Transaction.mark_resolved (self : Transaction) :
    Except EngineError Transaction :=
  match self.check_state_is .Disputed with
  | .error e => .error e
  | .ok _ => .ok { self with state := .Normal }

/-- Mirror of `Transaction::mark_chargedback`: requires `Disputed`, moves to
`ChargedBack`. -/
def Transaction.mark_chargedback (self : Transaction) :
    Except EngineError Transaction :=
  match self.check_state_is .Disputed with
  | .error e => .error e
  | .ok _ => .ok { self with state := .ChargedBack }

/-- Lookup-functional model of `HashMap<TransactionId, Transaction>`. -/
abbrev TxLookup : Type := TransactionId → Option Transaction

/-- Point update of the transaction map: `insert`. -/
def txInsert (m : TxLookup) (k : TransactionId) (v : Transaction) : TxLookup :=
  fun x => if x = k then some v else m x

/-- Mirror of `ClientState` in src/client.rs. -/
structure ClientState : Type where
  available : DecimalType
  held : DecimalType
  locked : Bool
  tx_lookup : TxLookup

/-- Mirror of `ClientState::total`. -/
def ClientState.total (self : ClientState) : DecimalType :=
  self.held + self.available

/-- Mirror of `ClientState::deposit` (infallible). -/
def ClientState.deposit (self : ClientState) (tx : Transaction) : ClientState :=
  { self with
    available := self.available + tx.amount,
    tx_lookup := txInsert self.tx_lookup tx.txid tx }

/-- Mirror of `ClientState::withdraw`: fails atomically with
`InsufficientFunds` when `available < amount`; the failed entry is not
inserted into the map. -/
def ClientState.withdraw (self : ClientState) (tx : Transaction) :
    ClientState × Except EngineError Unit :=
  if self.available < tx.amount then
    (self, .error .InsufficientFunds)
  else
    ({ self with
        available := self.available - tx.amount,
        tx_lookup := txInsert self.tx_lookup tx.txid tx }, .ok ())

/-- Mirror of `ClientState::dispute_transaction`.  Note the source calls
`mark_disputed` through `get_mut` before matching on the kind, so in the
`Withdrawal` error arm the `Disputed` mark has already been written back into
the map and is not rolled back. -/
def ClientState.dispute_transaction (self : ClientState)
    (txid : TransactionId) : ClientState × Except EngineError Unit :=
  match self.tx_lookup txid with
  | none => (self, .error (.TxNotFound txid))
  | some tx =>
    match tx.mark_disputed with
    | .error e => (self, .error e)
    | .ok tx' =>
      let self' := { self with tx_lookup := txInsert self.tx_lookup txid tx' }
      match tx'.kind with
      | .Deposit amount =>
          ({ self' with
              available := self'.available - amount,
              held := self'.held + amount }, .ok ())
      | .Withdrawal _ => (self', .error (.TxCannotBeDisputed txid))

/-- Mirror of `ClientState::resolve_transaction`.  As in the source, the
`mark_resolved` write-back happens before the kind match and the held-funds
check, so those error arms keep the new entry state. -/
def ClientState.resolve_transaction (self : ClientState)
    (txid : TransactionId) : ClientState × Except EngineError Unit :=
  match self.tx_lookup txid with
  | none => (self, .error (.TxNotFound txid))
  | some tx =>
    match tx.mark_resolved with
    | .error e => (self, .error e)
    | .ok tx' =>
      let self' := { self with tx_lookup := txInsert self.tx_lookup txid tx' }
      match tx'.kind with
      | .Deposit amount =>
          if self'.held < amount then
            (self', .error .InternalError)
          else
            ({ self' with
                held := self'.held - amount,
                available := self'.available + amount }, .ok ())
      | .Withdrawal _ => (self', .error (.TxCannotBeDisputed txid))

/-- Mirror of `ClientState::chargeback_transaction`.  `self.locked = true` is
the last statement of the source function, reached only when no arm returned
an error. -/
def ClientState.chargeback_transaction (self : ClientState)
    (txid : TransactionId) : ClientState × Except EngineError Unit :=
  match self.tx_lookup txid with
  | none => (self, .error (.TxNotFound txid))
  | some tx =>
    match tx.mark_chargedback with
    | .error e => (self, .error e)
    | .ok tx' =>
      let self' := { self with tx_lookup := txInsert self.tx_lookup txid tx' }
      match tx'.kind with
      | .Deposit amount =>
          if self'.held < amount then
            (self', .error .InternalError)
          else
            ({ self' with held := self'.held - amount, locked := true }, .ok ())
      | .Withdrawal _ => (self', .error (.TxCannotBeDisputed txid))

/-- Lookup-functional model of `HashMap<ClientId, ClientState>`
(`AllClientsState`). -/
abbrev AllClientsState : Type := ClientId → Option ClientState

/-- Point update of the clients map: `insert` / write-back through `&mut`. -/
def clientInsert (m : AllClientsState) (k : ClientId) (v : ClientState) :
    AllClientsState :=
  fun x => if x = k then some v else m x

/-- Freshly created client, from the `or_insert_with` closure in
`get_unlocked_client_mut_or_create`. -/
def emptyClient : ClientState :=
  { available := 0, held := 0, locked := false, tx_lookup := fun _ => none }

/-- Mirror of `AllClientsState::get_unlocked_client_mut_or_create`: fails with
`ClientLocked` when the client exists and is locked (without inserting);
otherwise returns the map with the client present plus the borrowed client
value. -/
def AllClientsState.get_unlocked_client_mut_or_create (m : AllClientsState)
    (client_id : ClientId) :
    Except EngineError (AllClientsState × ClientState) :=
  match m client_id with
  | some c =>
      if c.locked then .error (.ClientLocked client_id)
      else .ok (m, c)
  | none => .ok (clientInsert m client_id emptyClient, emptyClient)

/-- Mirror of `AllClientsState::get_unlocked_client_mut`: `Ok None` when the
client does not exist, `ClientLocked` when locked. -/
def AllClientsState.get_unlocked_client_mut (m : AllClientsState)
    (client_id : ClientId) : Except EngineError (Option ClientState) :=
  match m client_id with
  | some c =>
      if c.locked then .error (.ClientLocked client_id)
      else .ok (some c)
  | none => .ok none

/-- Mirror of `EngineEvent` in src/engine.rs. -/
inductive EngineEvent : Type where
  | Deposit (txid : TransactionId) (client_id : ClientId) (amount : DecimalType)
  | Withdrawal (txid : TransactionId) (client_id : ClientId)
      (amount : DecimalType)
  | Dispute (txid : TransactionId) (client_id : ClientId)
  | Resolve (txid : TransactionId) (client_id : ClientId)
  | Chargeback (txid : TransactionId) (client_id : ClientId)
  | Exit
deriving DecidableEq

/-- Mirror of `EventOutput` in src/engine.rs. -/
inductive EventOutput : Type where
  | Continue
  | Exit
deriving DecidableEq

/-- Mirror of `EngineState` in src/engine.rs. -/
structure EngineState : Type where
  all_clients_state : AllClientsState
  seen_txids : SeenTxids

/-- Mirror of `handle_engine_event` in src/engine.rs.  Mutations performed
before an early `?` return (such as the seen-set insert in `Transaction::new`
and the write-backs through `&mut` clients) persist in the returned state. -/
def handle_engine_event (engine : EngineState) (event : EngineEvent) :
    EngineState × Except EngineError EventOutput :=
  match event with
  | .Deposit txid client_id amount =>
    match Transaction.new engine.seen_txids txid (.Deposit amount) with
    | (seen', .error e) => ({ engine with seen_txids := seen' }, .error e)
    | (seen', .ok tx) =>
      let engine' := { engine with seen_txids := seen' }
      match engine'.all_clients_state.get_unlocked_client_mut_or_create
          client_id with
      | .error e => (engine', .error e)
      | .ok (m, client) =>
        ({ engine' with
            all_clients_state :=
              clientInsert m client_id (client.deposit tx) }, .ok .Continue)
  | .Withdrawal txid client_id amount =>
    match Transaction.new engine.seen_txids txid (.Withdrawal amount) with
    | (seen', .error e) => ({ engine with seen_txids := seen' }, .error e)
    | (seen', .ok tx) =>
      let engine' := { engine with seen_txids := seen' }
      match engine'.all_clients_state.get_unlocked_client_mut_or_create
          client_id with
      | .error e => (engine', .error e)
      | .ok (m, client) =>
        let (client', r) := client.withdraw tx
        let engine'' := { engine' with
          all_clients_state := clientInsert m client_id client' }
        match r with
        | .error e => (engine'', .error e)
        | .ok _ => (engine'', .ok .Continue)
  | .Dispute txid client_id =>
    match engine.all_clients_state.get_unlocked_client_mut client_id with
    | .error e => (engine, .error e)
    | .ok none => (engine, .error (.ClientNotFound client_id))
    | .ok (some client) =>
      let (client', r) := client.dispute_transaction txid
      let engine' := { engine with
        all_clients_state :=
          clientInsert engine.all_clients_state client_id client' }
      match r with
      | .error e => (engine', .error e)
      | .ok _ => (engine', .ok .Continue)
  | .Resolve txid client_id =>
    match engine.all_clients_state.get_unlocked_client_mut client_id with
    | .error e => (engine, .error e)
    | .ok none => (engine, .error (.ClientNotFound client_id))
    | .ok (some client) =>
      let (client', r) := client.resolve_transaction txid
      let engine' := { engine with
        all_clients_state :=
          clientInsert engine.all_clients_state client_id client' }
      match r with
      | .error e => (engine', .error e)
      | .ok _ => (engine', .ok .Continue)
  | .Chargeback txid client_id =>
    match engine.all_clients_state.get_unlocked_client_mut client_id with
    | .error e => (engine, .error e)
    | .ok none => (engine, .error (.ClientNotFound client_id))
    | .ok (some client) =>
      let (client', r) := client.chargeback_transaction txid
      let engine' := { engine with
        all_clients_state :=
          clientInsert engine.all_clients_state client_id client' }
      match r with
      | .error e => (engine', .error e)
      | .ok _ => (engine', .ok .Continue)
  | .Exit => (engine, .ok .Exit)

/-- Initial engine state built in `spawn_engine`: empty clients map, empty
seen set. -/
def initialState : EngineState :=
  { all_clients_state := fun _ => none, seen_txids := fun _ => false }

/-- Event loop of `spawn_engine`: events are applied strictly in order;
soft errors discard the event and continue; `Exit` stops intake.  (A hard
`InternalError` terminates the process in the source; threading the state
onward here only enlarges the set of states we prove invariants about.) -/
def runEvents : EngineState → List EngineEvent → EngineState
  | s, [] => s
  | s, e :: es =>
    match handle_engine_event s e with
    | (s', .ok .Exit) => s'
    | (s', _) => runEvents s' es

/-- Transaction id carried by a Deposit or Withdrawal event (`none` for the
other event kinds). -/
def depositWithdrawalTxid : EngineEvent → Option TransactionId
  | .Deposit txid _ _ => some txid
  | .Withdrawal txid _ _ => some txid
  | _ => none

/-- Client id targeted by a mutating event (`none` for `Exit`). -/
def eventClient : EngineEvent → Option ClientId
  | .Deposit _ client_id _ => some client_id
  | .Withdrawal _ client_id _ => some client_id
  | .Dispute _ client_id => some client_id
  | .Resolve _ client_id => some client_id
  | .Chargeback _ client_id => some client_id
  | .Exit => none

/-- Invariant: every transaction id present in some client's entry map is in
the engine's seen set.  (The converse direction of the spec's claimed
invariant fails, see the corresponding counterexample.) -/
def entriesSubsetSeen (s : EngineState) : Prop :=
  ∀ cid cs t, s.all_clients_state cid = some cs → cs.tx_lookup t ≠ none →
    s.seen_txids t = true

/-- Relation between a pre-state and a post-state of a Client Account
operation targeting entry `txid`: balances and the locked flag are unchanged,
every other entry is unchanged, and the targeted entry still exists with the
same id and kind (only its lifecycle state may differ). -/
def sameAccountShape (c c' : ClientState) (txid : TransactionId) : Prop :=
  c'.available = c.available ∧ c'.held = c.held ∧ c'.locked = c.locked ∧
  (∀ x, x ≠ txid → c'.tx_lookup x = c.tx_lookup x) ∧
  Option.map (fun u => (u.txid, u.kind)) (c'.tx_lookup txid) =
    Option.map (fun u => (u.txid, u.kind)) (c.tx_lookup txid)

/-- Concrete client owning one Withdrawal entry in state `Normal`. -/
def withdrawalNormalClient : ClientState :=
  { available := 7, held := 0, locked := false,
    tx_lookup := fun x =>
      if x = 1 then some ⟨1, .Withdrawal 5, .Normal⟩ else none }

/-- Concrete client owning one Withdrawal entry in state `Disputed` (such a
state is reachable: disputing a withdrawal marks it `Disputed` before failing,
see the claim about dispute of withdrawals). -/
def withdrawalDisputedClient : ClientState :=
  { available := 0, held := 0, locked := false,
    tx_lookup := fun x =>
      if x = 3 then some ⟨3, .Withdrawal 5, .Disputed⟩ else none }

/-- Concrete client owning one disputed Deposit entry covered by held funds. -/
def disputedDepositClient : ClientState :=
  { available := 0, held := 10, locked := false,
    tx_lookup := fun x =>
      if x = 1 then some ⟨1, .Deposit 10, .Disputed⟩ else none }

/-- Concrete locked client with empty ledger. -/
def lockedClientState : ClientState :=
  { available := 0, held := 0, locked := true, tx_lookup := fun _ => none }

/-- Concrete engine state with client 1 locked and transaction id 1 already
seen. -/
def lockedEngineState : EngineState :=
  { all_clients_state := fun cid => if cid = 1 then some lockedClientState
      else none,
    seen_txids := fun t => t == 1 }

/-! ## Basic lemmas about the map and set models -/

theorem seenInsert_self (s : SeenTxids) (t : TransactionId) :
    seenInsert s t t = true := by
  simp [seenInsert]

theorem seenInsert_preserve {s : SeenTxids} {x : TransactionId}
    (t : TransactionId) (h : s x = true) : seenInsert s t x = true := by
  simp only [seenInsert]
  split
  · rfl
  · exact h

theorem seenInsert_already {s : SeenTxids} {t : TransactionId}
    (h : s t = true) : seenInsert s t = s := by
  funext x
  simp only [seenInsert]
  split
  · next hx => rw [hx, h]
  · rfl

theorem clientInsert_eq (m : AllClientsState) (k : ClientId) (v : ClientState) :
    clientInsert m k v k = some v := by
  simp [clientInsert]

theorem clientInsert_ne (m : AllClientsState) (k : ClientId) (v : ClientState)
    {x : ClientId} (h : x ≠ k) : clientInsert m k v x = m x := by
  simp [clientInsert, h]

theorem txInsert_eq (m : TxLookup) (k : TransactionId) (v : Transaction) :
    txInsert m k v k = some v := by
  simp [txInsert]

theorem txInsert_ne (m : TxLookup) (k : TransactionId) (v : Transaction)
    {x : TransactionId} (h : x ≠ k) : txInsert m k v x = m x := by
  simp [txInsert, h]

theorem Transaction.new_fst (s : SeenTxids) (t : TransactionId)
    (k : TransactionKind) : (Transaction.new s t k).1 = seenInsert s t := by
  simp only [Transaction.new]
  split <;> rfl

theorem Transaction.new_of_seen {s : SeenTxids} {t : TransactionId}
    (k : TransactionKind) (h : s t = true) :
    Transaction.new s t k = (seenInsert s t, .error (.TxAlreadySeen t)) := by
  simp [Transaction.new, h]

theorem Transaction.new_of_fresh {s : SeenTxids} {t : TransactionId}
    (k : TransactionKind) (h : s t = false) :
    Transaction.new s t k =
      (seenInsert s t, .ok { txid := t, kind := k, state := .Normal }) := by
  simp [Transaction.new, h]

theorem Transaction.new_of_not_seen {s : SeenTxids} {t : TransactionId}
    (k : TransactionKind) (h : ¬ s t = true) :
    Transaction.new s t k =
      (seenInsert s t, .ok { txid := t, kind := k, state := .Normal }) :=
  Transaction.new_of_fresh k (by simpa using h)

/-! ## C9: withdrawal semantics -/

/-- C9: for a Withdrawal event with a fresh transaction id and an unlocked (or
not-yet-existing) client account, `available < amount` fails with
`InsufficientFunds` leaving `available` unchanged; otherwise `available`
decreases by exactly `amount`; and a Withdrawal for a never-seen client still
creates that client's account with zero balances even when rejected. -/
theorem withdraw_fresh_id_semantics (s : EngineState) (t : TransactionId)
    (cid : ClientId) (a : DecimalType) (cs : ClientState)
    (hfresh : s.seen_txids t = false) :
    (s.all_clients_state cid = some cs → cs.locked = false →
      ((cs.available < a →
          (handle_engine_event s (.Withdrawal t cid a)).2 =
            .error .InsufficientFunds ∧
          Option.map ClientState.available
            ((handle_engine_event s (.Withdrawal t cid a)).1.all_clients_state
              cid) = some cs.available) ∧
       (¬ cs.available < a →
          (handle_engine_event s (.Withdrawal t cid a)).2 = .ok .Continue ∧
          Option.map ClientState.available
            ((handle_engine_event s (.Withdrawal t cid a)).1.all_clients_state
              cid) = some (cs.available - a)))) ∧
    (s.all_clients_state cid = none → 0 < a →
      (handle_engine_event s (.Withdrawal t cid a)).2 =
        .error .InsufficientFunds ∧
      Option.map (fun c => (c.available, c.held, c.locked))
        ((handle_engine_event s (.Withdrawal t cid a)).1.all_clients_state
          cid) = some (0, 0, false)) := by
  constructor
  · intro hc hl
    constructor
    · intro hlt
      simp [handle_engine_event, Transaction.new_of_fresh _ hfresh,
        AllClientsState.get_unlocked_client_mut_or_create, hc, hl,
        ClientState.withdraw, Transaction.amount, hlt, clientInsert_eq]
    · intro hge
      simp [handle_engine_event, Transaction.new_of_fresh _ hfresh,
        AllClientsState.get_unlocked_client_mut_or_create, hc, hl,
        ClientState.withdraw, Transaction.amount, hge, clientInsert_eq]
  · intro hc ha
    simp [handle_engine_event, Transaction.new_of_fresh _ hfresh,
      AllClientsState.get_unlocked_client_mut_or_create, hc,
      ClientState.withdraw, Transaction.amount, emptyClient, ha,
      clientInsert_eq]

/-- Witness for the withdrawal-semantics theorem: Scenario F.  A Withdrawal of
5 for a never-seen client from the initial state is rejected with
`InsufficientFunds`, yet the account exists afterwards with zero balances. -/
theorem withdraw_fresh_id_semantics_witness :
    (handle_engine_event initialState (.Withdrawal 1 1 5)).2 =
      .error .InsufficientFunds ∧
    Option.map (fun c => (c.available, c.held, c.locked))
      ((handle_engine_event initialState
        (.Withdrawal 1 1 5)).1.all_clients_state 1) = some (0, 0, false) :=
  (withdraw_fresh_id_semantics initialState 1 1 5 emptyClient rfl).2 rfl
    (by decide)

/-! ## C8: dispute of a Normal Deposit entry -/

/-- C8: disputing a Deposit-kind entry in state `Normal` owned by an existing
unlocked account succeeds, moves the amount from available to held with no
floor at zero, and leaves total = available + held unchanged. -/
theorem dispute_deposit_normal_semantics (s : EngineState) (cid : ClientId)
    (txid : TransactionId) (amt : DecimalType) (cs : ClientState)
    (tx : Transaction) (hc : s.all_clients_state cid = some cs)
    (hl : cs.locked = false) (htx : cs.tx_lookup txid = some tx)
    (hst : tx.state = .Normal) (hk : tx.kind = .Deposit amt) :
    (handle_engine_event s (.Dispute txid cid)).2 = .ok .Continue ∧
    Option.map (fun c => (c.available, c.held, c.total, c.locked))
      ((handle_engine_event s (.Dispute txid cid)).1.all_clients_state cid) =
      some (cs.available - amt, cs.held + amt, cs.total, false) := by
  simp [handle_engine_event, AllClientsState.get_unlocked_client_mut, hc, hl,
    ClientState.dispute_transaction, htx, Transaction.mark_disputed,
    Transaction.check_state_is, hst, hk, clientInsert_eq, ClientState.total]

/-- Witness: Scenario C.  Deposit(tx=1, client=1, amt=10) then
Dispute(tx=1, client=1) gives available=0, held=10, total=10. -/
theorem dispute_deposit_normal_semantics_witness :
    (handle_engine_event (runEvents initialState [.Deposit 1 1 10])
      (.Dispute 1 1)).2 = .ok .Continue ∧
    Option.map (fun c => (c.available, c.held, c.total, c.locked))
      ((handle_engine_event (runEvents initialState [.Deposit 1 1 10])
        (.Dispute 1 1)).1.all_clients_state 1) = some (0, 10, 10, false) :=
  dispute_deposit_normal_semantics (runEvents initialState [.Deposit 1 1 10])
    1 1 10 (emptyClient.deposit ⟨1, .Deposit 10, .Normal⟩)
    ⟨1, .Deposit 10, .Normal⟩ rfl rfl rfl rfl rfl

/-! ## C1: dispute of a Withdrawal entry -/

/-- C1 (amended): disputing a Withdrawal-kind entry always fails — with
`TxCannotBeDisputed` when the entry is `Normal`, with `TxNotInState` otherwise
— and never changes available, held or locked; but the `Disputed` mark applied
by `mark_disputed` is NOT rolled back: a `Normal` Withdrawal entry is left in
state `Disputed`. -/
theorem dispute_withdrawal_semantics (c : ClientState) (txid : TransactionId)
    (tx : Transaction) (amt : DecimalType) (htx : c.tx_lookup txid = some tx)
    (hk : tx.kind = .Withdrawal amt) :
    (c.dispute_transaction txid).2 ≠ .ok () ∧
    (c.dispute_transaction txid).1.available = c.available ∧
    (c.dispute_transaction txid).1.held = c.held ∧
    (c.dispute_transaction txid).1.locked = c.locked ∧
    (tx.state = .Normal →
      (c.dispute_transaction txid).2 = .error (.TxCannotBeDisputed txid) ∧
      (c.dispute_transaction txid).1.tx_lookup txid =
        some { txid := tx.txid, kind := tx.kind, state := .Disputed }) ∧
    (tx.state ≠ .Normal →
      (c.dispute_transaction txid).2 =
        .error (.TxNotInState tx.txid .Normal tx.state) ∧
      (c.dispute_transaction txid).1 = c) := by
  by_cases hst : tx.state = .Normal
  · simp [ClientState.dispute_transaction, htx, Transaction.mark_disputed,
      Transaction.check_state_is, hst, hk, txInsert_eq]
  · simp [ClientState.dispute_transaction, htx, Transaction.mark_disputed,
      Transaction.check_state_is, hst]

/-- Counterexample to C1 as stated: disputing the `Normal` Withdrawal entry of
`withdrawalNormalClient` fails, but the entry's lifecycle state changes from
`Normal` to `Disputed` — the mark is not rolled back. -/
theorem dispute_withdrawal_rollback_cex :
    withdrawalNormalClient.tx_lookup 1 = some ⟨1, .Withdrawal 5, .Normal⟩ ∧
    (withdrawalNormalClient.dispute_transaction 1).2 =
      .error (.TxCannotBeDisputed 1) ∧
    (withdrawalNormalClient.dispute_transaction 1).1.tx_lookup 1 =
      some ⟨1, .Withdrawal 5, .Disputed⟩ := by
  decide

/-- Witness for the amended dispute-of-withdrawal theorem at a concrete
client. -/
theorem dispute_withdrawal_semantics_witness :
    (withdrawalNormalClient.dispute_transaction 1).1.available =
      withdrawalNormalClient.available ∧
    (withdrawalNormalClient.dispute_transaction 1).2 =
      .error (.TxCannotBeDisputed 1) := by
  have h := dispute_withdrawal_semantics withdrawalNormalClient 1
    ⟨1, .Withdrawal 5, .Normal⟩ 5 rfl rfl
  exact ⟨h.2.1, (h.2.2.2.2.1 rfl).1⟩

/-! ## C2: atomicity of the account operations -/

theorem sameAccountShape_refl (c : ClientState) (txid : TransactionId) :
    sameAccountShape c c txid :=
  ⟨rfl, rfl, rfl, fun _ _ => rfl, rfl⟩

/-- C2 (amended): every failing Client Account operation leaves available,
held, the locked flag and every non-targeted ledger entry unchanged, and keeps
the targeted entry's id and kind; but dispute, resolve and chargeback may
leave the targeted entry's lifecycle state changed on failure (the `mark_*`
transition is not rolled back when a later check fails).  `withdraw` is fully
atomic and `deposit` is infallible. -/
theorem ops_atomic_up_to_entry_state (c : ClientState) (tx : Transaction)
    (txid : TransactionId) (e : EngineError) :
    ((c.withdraw tx).2 = .error e → (c.withdraw tx).1 = c) ∧
    ((c.dispute_transaction txid).2 = .error e →
      sameAccountShape c (c.dispute_transaction txid).1 txid) ∧
    ((c.resolve_transaction txid).2 = .error e →
      sameAccountShape c (c.resolve_transaction txid).1 txid) ∧
    ((c.chargeback_transaction txid).2 = .error e →
      sameAccountShape c (c.chargeback_transaction txid).1 txid) := by
  refine ⟨?_, ?_, ?_, ?_⟩
  · intro h
    by_cases hlt : c.available < tx.amount
    · simp [ClientState.withdraw, hlt]
    · simp [ClientState.withdraw, hlt] at h
  · intro h
    cases hlook : c.tx_lookup txid with
    | none => simp [ClientState.dispute_transaction, hlook,
        sameAccountShape_refl]
    | some tx0 =>
      by_cases hst : tx0.state = .Normal
      · cases hk : tx0.kind with
        | Deposit amt =>
          simp [ClientState.dispute_transaction, hlook,
            Transaction.mark_disputed, Transaction.check_state_is, hst,
            hk] at h
        | Withdrawal amt =>
          simp [sameAccountShape, ClientState.dispute_transaction, hlook,
            Transaction.mark_disputed, Transaction.check_state_is, hst, hk,
            txInsert]
          exact fun x h1 h2 => absurd h2 h1
      · simp [ClientState.dispute_transaction, hlook,
          Transaction.mark_disputed, Transaction.check_state_is, hst,
          sameAccountShape_refl]
  · intro h
    cases hlook : c.tx_lookup txid with
    | none => simp [ClientState.resolve_transaction, hlook,
        sameAccountShape_refl]
    | some tx0 =>
      by_cases hst : tx0.state = .Disputed
      · cases hk : tx0.kind with
        | Deposit amt =>
          by_cases hheld : c.held < amt
          · simp [sameAccountShape, ClientState.resolve_transaction, hlook,
              Transaction.mark_resolved, Transaction.check_state_is, hst,
              hk, hheld, txInsert]
            exact fun x h1 h2 => absurd h2 h1
          · simp [ClientState.resolve_transaction, hlook,
              Transaction.mark_resolved, Transaction.check_state_is, hst, hk,
              hheld] at h
        | Withdrawal amt =>
          simp [sameAccountShape, ClientState.resolve_transaction, hlook,
            Transaction.mark_resolved, Transaction.check_state_is, hst, hk,
            txInsert]
          exact fun x h1 h2 => absurd h2 h1
      · simp [ClientState.resolve_transaction, hlook,
          Transaction.mark_resolved, Transaction.check_state_is, hst,
          sameAccountShape_refl]
  · intro h
    cases hlook : c.tx_lookup txid with
    | none => simp [ClientState.chargeback_transaction, hlook,
        sameAccountShape_refl]
    | some tx0 =>
      by_cases hst : tx0.state = .Disputed
      · cases hk : tx0.kind with
        | Deposit amt =>
          by_cases hheld : c.held < amt
          · simp [sameAccountShape, ClientState.chargeback_transaction,
              hlook, Transaction.mark_chargedback, Transaction.check_state_is,
              hst, hk, hheld, txInsert]
            exact fun x h1 h2 => absurd h2 h1
          · simp [ClientState.chargeback_transaction, hlook,
              Transaction.mark_chargedback, Transaction.check_state_is, hst,
              hk, hheld] at h
        | Withdrawal amt =>
          simp [sameAccountShape, ClientState.chargeback_transaction,
            hlook, Transaction.mark_chargedback, Transaction.check_state_is,
            hst, hk, txInsert]
          exact fun x h1 h2 => absurd h2 h1
      · simp [ClientState.chargeback_transaction, hlook,
          Transaction.mark_chargedback, Transaction.check_state_is, hst,
          sameAccountShape_refl]

/-- Counterexample to C2 as stated: resolving a Disputed Withdrawal entry
returns an error, yet the entry's lifecycle state changes from `Disputed` to
`Normal` — the operation is not atomic with respect to entry state. -/
theorem resolve_not_atomic_cex :
    withdrawalDisputedClient.tx_lookup 3 =
      some ⟨3, .Withdrawal 5, .Disputed⟩ ∧
    (withdrawalDisputedClient.resolve_transaction 3).2 =
      .error (.TxCannotBeDisputed 3) ∧
    (withdrawalDisputedClient.resolve_transaction 3).1.tx_lookup 3 =
      some ⟨3, .Withdrawal 5, .Normal⟩ := by
  decide

/-- Witness for the amended atomicity theorem: a failing withdrawal leaves the
client state exactly unchanged. -/
theorem ops_atomic_up_to_entry_state_witness :
    (withdrawalNormalClient.withdraw ⟨9, .Withdrawal 9, .Normal⟩).1 =
      withdrawalNormalClient :=
  (ops_atomic_up_to_entry_state withdrawalNormalClient
    ⟨9, .Withdrawal 9, .Normal⟩ 9 .InsufficientFunds).1 (by decide)

/-! ## C7: chargeback semantics -/

/-- C7 (amended): chargeback of an entry owned by the account fails with
`TxNotFound` for an unknown id, with `TxNotInState` when the entry is not
Disputed, with `InternalError` when the entry is a Disputed Deposit whose
amount exceeds held, and with `TxCannotBeDisputed` when the entry is a
Disputed Withdrawal (this case is missing from the claim's enumeration); on
success (Disputed Deposit covered by held) it subtracts the amount from held
and sets locked; on every failure the locked flag is unchanged. -/
theorem chargeback_semantics (c : ClientState) (txid : TransactionId) :
    (c.tx_lookup txid = none →
      c.chargeback_transaction txid = (c, .error (.TxNotFound txid))) ∧
    (∀ tx, c.tx_lookup txid = some tx → tx.state ≠ .Disputed →
      c.chargeback_transaction txid =
        (c, .error (.TxNotInState tx.txid .Disputed tx.state))) ∧
    (∀ tx amt, c.tx_lookup txid = some tx → tx.state = .Disputed →
      tx.kind = .Deposit amt → c.held < amt →
      (c.chargeback_transaction txid).2 = .error .InternalError ∧
      (c.chargeback_transaction txid).1.available = c.available ∧
      (c.chargeback_transaction txid).1.held = c.held ∧
      (c.chargeback_transaction txid).1.locked = c.locked) ∧
    (∀ tx amt, c.tx_lookup txid = some tx → tx.state = .Disputed →
      tx.kind = .Deposit amt → ¬ c.held < amt →
      (c.chargeback_transaction txid).2 = .ok () ∧
      (c.chargeback_transaction txid).1.available = c.available ∧
      (c.chargeback_transaction txid).1.held = c.held - amt ∧
      (c.chargeback_transaction txid).1.locked = true) ∧
    (∀ tx amt, c.tx_lookup txid = some tx → tx.state = .Disputed →
      tx.kind = .Withdrawal amt →
      (c.chargeback_transaction txid).2 =
        .error (.TxCannotBeDisputed txid) ∧
      (c.chargeback_transaction txid).1.available = c.available ∧
      (c.chargeback_transaction txid).1.held = c.held ∧
      (c.chargeback_transaction txid).1.locked = c.locked) ∧
    (∀ e, (c.chargeback_transaction txid).2 = .error e →
      (c.chargeback_transaction txid).1.locked = c.locked) := by
  refine ⟨?_, ?_, ?_, ?_, ?_, ?_⟩
  · intro hlook
    simp [ClientState.chargeback_transaction, hlook]
  · intro tx hlook hst
    simp [ClientState.chargeback_transaction, hlook,
      Transaction.mark_chargedback, Transaction.check_state_is, hst]
  · intro tx amt hlook hst hk hheld
    simp [ClientState.chargeback_transaction, hlook,
      Transaction.mark_chargedback, Transaction.check_state_is, hst, hk,
      hheld]
  · intro tx amt hlook hst hk hheld
    simp [ClientState.chargeback_transaction, hlook,
      Transaction.mark_chargedback, Transaction.check_state_is, hst, hk,
      hheld]
  · intro tx amt hlook hst hk
    simp [ClientState.chargeback_transaction, hlook,
      Transaction.mark_chargedback, Transaction.check_state_is, hst, hk]
  · intro e h
    cases hlook : c.tx_lookup txid with
    | none => simp [ClientState.chargeback_transaction, hlook]
    | some tx0 =>
      by_cases hst : tx0.state = .Disputed
      · cases hk : tx0.kind with
        | Deposit amt =>
          by_cases hheld : c.held < amt
          · simp [ClientState.chargeback_transaction, hlook,
              Transaction.mark_chargedback, Transaction.check_state_is, hst,
              hk, hheld]
          · simp [ClientState.chargeback_transaction, hlook,
              Transaction.mark_chargedback, Transaction.check_state_is, hst,
              hk, hheld] at h
        | Withdrawal amt =>
          simp [ClientState.chargeback_transaction, hlook,
            Transaction.mark_chargedback, Transaction.check_state_is, hst, hk]
      · simp [ClientState.chargeback_transaction, hlook,
          Transaction.mark_chargedback, Transaction.check_state_is, hst]

/-- Counterexample to C7 as stated: in a reachable state, client 1 owns a
Disputed Withdrawal entry with held = 0 < amount = 5.  The claim's enumeration
predicts `InternalInconsistency`; the code fails with `TxCannotBeDisputed`
instead (and locked stays false). -/
theorem chargeback_disputed_withdrawal_cex :
    Option.map (fun c => (c.held, c.tx_lookup 2))
      ((runEvents initialState [.Deposit 1 1 10, .Withdrawal 2 1 5,
        .Dispute 2 1]).all_clients_state 1) =
      some (0, some ⟨2, .Withdrawal 5, .Disputed⟩) ∧
    (handle_engine_event (runEvents initialState [.Deposit 1 1 10,
      .Withdrawal 2 1 5, .Dispute 2 1]) (.Chargeback 2 1)).2 =
      .error (.TxCannotBeDisputed 2) ∧
    Option.map ClientState.locked
      ((handle_engine_event (runEvents initialState [.Deposit 1 1 10,
        .Withdrawal 2 1 5, .Dispute 2 1])
        (.Chargeback 2 1)).1.all_clients_state 1) = some false := by
  decide

/-- Witness for the amended chargeback theorem: the success case on a client
with a Disputed Deposit of 10 fully covered by held = 10. -/
theorem chargeback_semantics_witness :
    (disputedDepositClient.chargeback_transaction 1).2 = .ok () ∧
    (disputedDepositClient.chargeback_transaction 1).1.available =
      disputedDepositClient.available ∧
    (disputedDepositClient.chargeback_transaction 1).1.held =
      disputedDepositClient.held - 10 ∧
    (disputedDepositClient.chargeback_transaction 1).1.locked = true :=
  (chargeback_semantics disputedDepositClient 1).2.2.2.1
    ⟨1, .Deposit 10, .Disputed⟩ 10 rfl rfl rfl (by decide)

/-! ## C4: order of the duplicate-id and lock checks -/

/-- C4 (amended): for Dispute/Resolve/Chargeback on an existing locked
account, `ClientLocked` is returned before any other check; for Deposit and
Withdrawal the global duplicate-id check runs first, so against a locked
account a fresh id yields `ClientLocked` but an already-seen id yields
`TxAlreadySeen`, not `ClientLocked`. -/
theorem locked_account_check_order (s : EngineState) (cid : ClientId)
    (cs : ClientState) (t1 t2 : TransactionId) (a : DecimalType)
    (hc : s.all_clients_state cid = some cs) (hl : cs.locked = true)
    (h1 : s.seen_txids t1 = false) (h2 : s.seen_txids t2 = true) :
    (handle_engine_event s (.Dispute t2 cid)).2 =
      .error (.ClientLocked cid) ∧
    (handle_engine_event s (.Resolve t2 cid)).2 =
      .error (.ClientLocked cid) ∧
    (handle_engine_event s (.Chargeback t2 cid)).2 =
      .error (.ClientLocked cid) ∧
    (handle_engine_event s (.Deposit t1 cid a)).2 =
      .error (.ClientLocked cid) ∧
    (handle_engine_event s (.Withdrawal t1 cid a)).2 =
      .error (.ClientLocked cid) ∧
    (handle_engine_event s (.Deposit t2 cid a)).2 =
      .error (.TxAlreadySeen t2) ∧
    (handle_engine_event s (.Withdrawal t2 cid a)).2 =
      .error (.TxAlreadySeen t2) := by
  refine ⟨?_, ?_, ?_, ?_, ?_, ?_, ?_⟩ <;>
    simp [handle_engine_event, AllClientsState.get_unlocked_client_mut,
      AllClientsState.get_unlocked_client_mut_or_create, hc, hl,
      Transaction.new_of_fresh _ h1, Transaction.new_of_seen _ h2]

/-- Counterexample to C4 as stated: after Deposit(1,1,10), Dispute(1,1),
Chargeback(1,1) client 1 is locked and id 1 is seen; a new Deposit reusing
id 1 against the locked account is rejected with `TxAlreadySeen`
(DuplicateTransaction), not `ClientLocked` (AccountLocked). -/
theorem locked_account_check_order_cex :
    Option.map ClientState.locked
      ((runEvents initialState [.Deposit 1 1 10, .Dispute 1 1,
        .Chargeback 1 1]).all_clients_state 1) = some true ∧
    (runEvents initialState [.Deposit 1 1 10, .Dispute 1 1,
      .Chargeback 1 1]).seen_txids 1 = true ∧
    (handle_engine_event (runEvents initialState [.Deposit 1 1 10,
      .Dispute 1 1, .Chargeback 1 1]) (.Deposit 1 1 5)).2 =
      .error (.TxAlreadySeen 1) := by
  decide

/-- Witness for the check-order theorem on a concrete locked state. -/
theorem locked_account_check_order_witness :
    (handle_engine_event lockedEngineState (.Dispute 1 1)).2 =
      .error (.ClientLocked 1) ∧
    (handle_engine_event lockedEngineState (.Resolve 1 1)).2 =
      .error (.ClientLocked 1) ∧
    (handle_engine_event lockedEngineState (.Chargeback 1 1)).2 =
      .error (.ClientLocked 1) ∧
    (handle_engine_event lockedEngineState (.Deposit 7 1 5)).2 =
      .error (.ClientLocked 1) ∧
    (handle_engine_event lockedEngineState (.Withdrawal 7 1 5)).2 =
      .error (.ClientLocked 1) ∧
    (handle_engine_event lockedEngineState (.Deposit 1 1 5)).2 =
      .error (.TxAlreadySeen 1) ∧
    (handle_engine_event lockedEngineState (.Withdrawal 1 1 5)).2 =
      .error (.TxAlreadySeen 1) :=
  locked_account_check_order lockedEngineState 1 lockedClientState 7 1 5
    rfl rfl rfl rfl

/-! ## C6: a locked account is frozen forever -/

/-- Lemma: no event ever changes (or removes) the map entry of a locked
client: any event targeting it fails before a write-back, and events for
other clients write elsewhere. -/
theorem locked_client_entry_preserved (s : EngineState) (e : EngineEvent)
    (cid : ClientId) (cs : ClientState)
    (hc : s.all_clients_state cid = some cs) (hl : cs.locked = true) :
    (handle_engine_event s e).1.all_clients_state cid = some cs := by
  have hne : ∀ (c2 : ClientId), ¬ c2 = cid → cid ≠ c2 :=
    fun c2 h => fun h2 => h h2.symm
  cases e with
  | Deposit t c2 a =>
    by_cases hseen : s.seen_txids t
    · simp [handle_engine_event, Transaction.new_of_seen _ hseen, hc]
    · by_cases hcc : c2 = cid
      · subst hcc
        simp [handle_engine_event, Transaction.new_of_not_seen _ hseen,
          AllClientsState.get_unlocked_client_mut_or_create, hc, hl]
      · cases h2 : s.all_clients_state c2 with
        | none =>
          simp [handle_engine_event, Transaction.new_of_not_seen _ hseen,
            AllClientsState.get_unlocked_client_mut_or_create, h2,
            clientInsert_ne _ _ _ (hne c2 hcc), hc]
        | some c =>
          by_cases hcl : c.locked
          · simp [handle_engine_event, Transaction.new_of_not_seen _ hseen,
              AllClientsState.get_unlocked_client_mut_or_create, h2, hcl, hc]
          · simp [handle_engine_event, Transaction.new_of_not_seen _ hseen,
              AllClientsState.get_unlocked_client_mut_or_create, h2, hcl,
              clientInsert_ne _ _ _ (hne c2 hcc), hc]
  | Withdrawal t c2 a =>
    by_cases hseen : s.seen_txids t
    · simp [handle_engine_event, Transaction.new_of_seen _ hseen, hc]
    · by_cases hcc : c2 = cid
      · subst hcc
        simp [handle_engine_event, Transaction.new_of_not_seen _ hseen,
          AllClientsState.get_unlocked_client_mut_or_create, hc, hl]
      · cases h2 : s.all_clients_state c2 with
        | none =>
          rcases hres : ClientState.withdraw emptyClient
              { txid := t, kind := .Withdrawal a, state := .Normal } with
            ⟨c3, r⟩
          cases r <;>
            simp [handle_engine_event, Transaction.new_of_not_seen _ hseen,
              AllClientsState.get_unlocked_client_mut_or_create, h2, hres,
              clientInsert_ne _ _ _ (hne c2 hcc), hc]
        | some c =>
          by_cases hcl : c.locked
          · simp [handle_engine_event, Transaction.new_of_not_seen _ hseen,
              AllClientsState.get_unlocked_client_mut_or_create, h2, hcl, hc]
          · rcases hres : ClientState.withdraw c
                { txid := t, kind := .Withdrawal a, state := .Normal } with
              ⟨c3, r⟩
            cases r <;>
              simp [handle_engine_event, Transaction.new_of_not_seen _ hseen,
                AllClientsState.get_unlocked_client_mut_or_create, h2, hcl,
                hres, clientInsert_ne _ _ _ (hne c2 hcc), hc]
  | Dispute t c2 =>
    by_cases hcc : c2 = cid
    · subst hcc
      simp [handle_engine_event, AllClientsState.get_unlocked_client_mut,
        hc, hl]
    · cases h2 : s.all_clients_state c2 with
      | none =>
        simp [handle_engine_event, AllClientsState.get_unlocked_client_mut,
          h2, hc]
      | some c =>
        by_cases hcl : c.locked
        · simp [handle_engine_event, AllClientsState.get_unlocked_client_mut,
            h2, hcl, hc]
        · rcases hres : c.dispute_transaction t with ⟨c3, r⟩
          cases r <;>
            simp [handle_engine_event,
              AllClientsState.get_unlocked_client_mut, h2, hcl, hres,
              clientInsert_ne _ _ _ (hne c2 hcc), hc]
  | Resolve t c2 =>
    by_cases hcc : c2 = cid
    · subst hcc
      simp [handle_engine_event, AllClientsState.get_unlocked_client_mut,
        hc, hl]
    · cases h2 : s.all_clients_state c2 with
      | none =>
        simp [handle_engine_event, AllClientsState.get_unlocked_client_mut,
          h2, hc]
      | some c =>
        by_cases hcl : c.locked
        · simp [handle_engine_event, AllClientsState.get_unlocked_client_mut,
            h2, hcl, hc]
        · rcases hres : c.resolve_transaction t with ⟨c3, r⟩
          cases r <;>
            simp [handle_engine_event,
              AllClientsState.get_unlocked_client_mut, h2, hcl, hres,
              clientInsert_ne _ _ _ (hne c2 hcc), hc]
  | Chargeback t c2 =>
    by_cases hcc : c2 = cid
    · subst hcc
      simp [handle_engine_event, AllClientsState.get_unlocked_client_mut,
        hc, hl]
    · cases h2 : s.all_clients_state c2 with
      | none =>
        simp [handle_engine_event, AllClientsState.get_unlocked_client_mut,
          h2, hc]
      | some c =>
        by_cases hcl : c.locked
        · simp [handle_engine_event, AllClientsState.get_unlocked_client_mut,
            h2, hcl, hc]
        · rcases hres : c.chargeback_transaction t with ⟨c3, r⟩
          cases r <;>
            simp [handle_engine_event,
              AllClientsState.get_unlocked_client_mut, h2, hcl, hres,
              clientInsert_ne _ _ _ (hne c2 hcc), hc]
  | Exit => simpa [handle_engine_event] using hc

/-- C6 (amended): once a client is locked, every subsequent mutating event for
that client fails — with `ClientLocked`, except that a Deposit/Withdrawal
whose transaction id was already seen fails with `TxAlreadySeen` — and no
event (for this or any other client) ever changes or removes the locked
client's account state, so available, held and the locked flag stay unchanged
and the lock is never reset. -/
theorem locked_account_frozen (s : EngineState) (cid : ClientId)
    (cs : ClientState) (e e2 : EngineEvent)
    (hc : s.all_clients_state cid = some cs) (hl : cs.locked = true)
    (he : eventClient e = some cid) :
    ((handle_engine_event s e).2 = .error (.ClientLocked cid) ∨
      (∃ t, depositWithdrawalTxid e = some t ∧ s.seen_txids t = true ∧
        (handle_engine_event s e).2 = .error (.TxAlreadySeen t))) ∧
    (handle_engine_event s e2).1.all_clients_state cid = some cs := by
  refine ⟨?_, locked_client_entry_preserved s e2 cid cs hc hl⟩
  cases e with
  | Deposit t c2 a =>
    have hcid : c2 = cid := by simpa [eventClient] using he
    subst hcid
    cases hseen : s.seen_txids t with
    | true =>
      exact Or.inr ⟨t, rfl, hseen, by
        simp [handle_engine_event, Transaction.new_of_seen _ hseen]⟩
    | false =>
      exact Or.inl (by
        simp [handle_engine_event, Transaction.new_of_fresh _ hseen,
          AllClientsState.get_unlocked_client_mut_or_create, hc, hl])
  | Withdrawal t c2 a =>
    have hcid : c2 = cid := by simpa [eventClient] using he
    subst hcid
    cases hseen : s.seen_txids t with
    | true =>
      exact Or.inr ⟨t, rfl, hseen, by
        simp [handle_engine_event, Transaction.new_of_seen _ hseen]⟩
    | false =>
      exact Or.inl (by
        simp [handle_engine_event, Transaction.new_of_fresh _ hseen,
          AllClientsState.get_unlocked_client_mut_or_create, hc, hl])
  | Dispute t c2 =>
    have hcid : c2 = cid := by simpa [eventClient] using he
    subst hcid
    exact Or.inl (by
      simp [handle_engine_event, AllClientsState.get_unlocked_client_mut,
        hc, hl])
  | Resolve t c2 =>
    have hcid : c2 = cid := by simpa [eventClient] using he
    subst hcid
    exact Or.inl (by
      simp [handle_engine_event, AllClientsState.get_unlocked_client_mut,
        hc, hl])
  | Chargeback t c2 =>
    have hcid : c2 = cid := by simpa [eventClient] using he
    subst hcid
    exact Or.inl (by
      simp [handle_engine_event, AllClientsState.get_unlocked_client_mut,
        hc, hl])
  | Exit => simp [eventClient] at he

/-- Counterexample to C6 as stated: after client 2 is locked by a chargeback,
a Withdrawal for client 2 reusing the seen id 4 fails with `TxAlreadySeen`
(DuplicateTransaction), not with `ClientLocked` (AccountLocked) as the claim's
parenthetical asserts. -/
theorem locked_account_frozen_cex :
    Option.map ClientState.locked
      ((runEvents initialState [.Deposit 4 2 8, .Dispute 4 2,
        .Chargeback 4 2]).all_clients_state 2) = some true ∧
    (handle_engine_event (runEvents initialState [.Deposit 4 2 8,
      .Dispute 4 2, .Chargeback 4 2]) (.Withdrawal 4 2 1)).2 =
      .error (.TxAlreadySeen 4) ∧
    (handle_engine_event (runEvents initialState [.Deposit 4 2 8,
      .Dispute 4 2, .Chargeback 4 2]) (.Withdrawal 4 2 1)).2 ≠
      .error (.ClientLocked 2) := by
  decide

/-- Witness for the frozen-account theorem on the concrete locked state. -/
theorem locked_account_frozen_witness :
    ((handle_engine_event lockedEngineState (.Deposit 1 1 5)).2 =
        .error (.ClientLocked 1) ∨
      (∃ t, depositWithdrawalTxid (.Deposit 1 1 5) = some t ∧
        lockedEngineState.seen_txids t = true ∧
        (handle_engine_event lockedEngineState (.Deposit 1 1 5)).2 =
          .error (.TxAlreadySeen t))) ∧
    (handle_engine_event lockedEngineState
      (.Withdrawal 2 1 3)).1.all_clients_state 1 = some lockedClientState :=
  locked_account_frozen lockedEngineState 1 lockedClientState
    (.Deposit 1 1 5) (.Withdrawal 2 1 3) rfl rfl rfl

/-! ## Lemmas about the seen set and the event loop -/

theorem handle_seen_deposit (s : EngineState) (t : TransactionId)
    (c : ClientId) (a : DecimalType) :
    (handle_engine_event s (.Deposit t c a)).1.seen_txids =
      seenInsert s.seen_txids t := by
  rcases hres : Transaction.new s.seen_txids t (.Deposit a) with ⟨seen', r⟩
  have hs : seen' = seenInsert s.seen_txids t := by
    have h := Transaction.new_fst s.seen_txids t (.Deposit a)
    rw [hres] at h
    exact h
  cases r with
  | error e => simp [handle_engine_event, hres, hs]
  | ok tx =>
    cases hg : s.all_clients_state.get_unlocked_client_mut_or_create c with
    | error e2 => simp [handle_engine_event, hres, hg, hs]
    | ok p =>
      rcases p with ⟨m, client⟩
      simp [handle_engine_event, hres, hg, hs]

theorem handle_seen_withdrawal (s : EngineState) (t : TransactionId)
    (c : ClientId) (a : DecimalType) :
    (handle_engine_event s (.Withdrawal t c a)).1.seen_txids =
      seenInsert s.seen_txids t := by
  rcases hres : Transaction.new s.seen_txids t (.Withdrawal a) with ⟨seen', r⟩
  have hs : seen' = seenInsert s.seen_txids t := by
    have h := Transaction.new_fst s.seen_txids t (.Withdrawal a)
    rw [hres] at h
    exact h
  cases r with
  | error e => simp [handle_engine_event, hres, hs]
  | ok tx =>
    cases hg : s.all_clients_state.get_unlocked_client_mut_or_create c with
    | error e2 => simp [handle_engine_event, hres, hg, hs]
    | ok p =>
      rcases p with ⟨m, client⟩
      rcases hw : client.withdraw tx with ⟨c2, r2⟩
      cases r2 <;> simp [handle_engine_event, hres, hg, hw, hs]

theorem handle_seen_dispute (s : EngineState) (t : TransactionId)
    (c : ClientId) :
    (handle_engine_event s (.Dispute t c)).1.seen_txids = s.seen_txids := by
  cases hg : s.all_clients_state.get_unlocked_client_mut c with
  | error e => simp [handle_engine_event, hg]
  | ok o =>
    cases o with
    | none => simp [handle_engine_event, hg]
    | some client =>
      rcases hres : client.dispute_transaction t with ⟨c2, r⟩
      cases r <;> simp [handle_engine_event, hg, hres]

theorem handle_seen_resolve (s : EngineState) (t : TransactionId)
    (c : ClientId) :
    (handle_engine_event s (.Resolve t c)).1.seen_txids = s.seen_txids := by
  cases hg : s.all_clients_state.get_unlocked_client_mut c with
  | error e => simp [handle_engine_event, hg]
  | ok o =>
    cases o with
    | none => simp [handle_engine_event, hg]
    | some client =>
      rcases hres : client.resolve_transaction t with ⟨c2, r⟩
      cases r <;> simp [handle_engine_event, hg, hres]

theorem handle_seen_chargeback (s : EngineState) (t : TransactionId)
    (c : ClientId) :
    (handle_engine_event s (.Chargeback t c)).1.seen_txids = s.seen_txids := by
  cases hg : s.all_clients_state.get_unlocked_client_mut c with
  | error e => simp [handle_engine_event, hg]
  | ok o =>
    cases o with
    | none => simp [handle_engine_event, hg]
    | some client =>
      rcases hres : client.chargeback_transaction t with ⟨c2, r⟩
      cases r <;> simp [handle_engine_event, hg, hres]

theorem handle_seen_preserve (s : EngineState) (e : EngineEvent)
    (t : TransactionId) (h : s.seen_txids t = true) :
    (handle_engine_event s e).1.seen_txids t = true := by
  cases e with
  | Deposit t2 c a => rw [handle_seen_deposit]; exact seenInsert_preserve _ h
  | Withdrawal t2 c a =>
    rw [handle_seen_withdrawal]; exact seenInsert_preserve _ h
  | Dispute t2 c => rw [handle_seen_dispute]; exact h
  | Resolve t2 c => rw [handle_seen_resolve]; exact h
  | Chargeback t2 c => rw [handle_seen_chargeback]; exact h
  | Exit => simpa [handle_engine_event] using h

theorem handle_sets_seen (s : EngineState) (e : EngineEvent)
    (t : TransactionId) (he : depositWithdrawalTxid e = some t) :
    (handle_engine_event s e).1.seen_txids t = true := by
  cases e with
  | Deposit t2 c a =>
    simp only [depositWithdrawalTxid, Option.some.injEq] at he
    subst he
    rw [handle_seen_deposit]
    exact seenInsert_self _ _
  | Withdrawal t2 c a =>
    simp only [depositWithdrawalTxid, Option.some.injEq] at he
    subst he
    rw [handle_seen_withdrawal]
    exact seenInsert_self _ _
  | Dispute t2 c => simp [depositWithdrawalTxid] at he
  | Resolve t2 c => simp [depositWithdrawalTxid] at he
  | Chargeback t2 c => simp [depositWithdrawalTxid] at he
  | Exit => simp [depositWithdrawalTxid] at he

theorem handle_dup_rejected (s : EngineState) (e : EngineEvent)
    (t : TransactionId) (he : depositWithdrawalTxid e = some t)
    (hseen : s.seen_txids t = true) :
    handle_engine_event s e = (s, .error (.TxAlreadySeen t)) := by
  cases e with
  | Deposit t2 c a =>
    simp only [depositWithdrawalTxid, Option.some.injEq] at he
    subst he
    simp [handle_engine_event, Transaction.new_of_seen _ hseen,
      seenInsert_already hseen]
  | Withdrawal t2 c a =>
    simp only [depositWithdrawalTxid, Option.some.injEq] at he
    subst he
    simp [handle_engine_event, Transaction.new_of_seen _ hseen,
      seenInsert_already hseen]
  | Dispute t2 c => simp [depositWithdrawalTxid] at he
  | Resolve t2 c => simp [depositWithdrawalTxid] at he
  | Chargeback t2 c => simp [depositWithdrawalTxid] at he
  | Exit => simp [depositWithdrawalTxid] at he

theorem handle_not_exit (s : EngineState) (e : EngineEvent)
    (hne : e ≠ .Exit) : (handle_engine_event s e).2 ≠ .ok .Exit := by
  cases e with
  | Exit => exact absurd rfl hne
  | Deposit t c a =>
    rcases hres : Transaction.new s.seen_txids t (.Deposit a) with ⟨seen', r⟩
    cases r with
    | error e2 => simp [handle_engine_event, hres]
    | ok tx =>
      cases hg : s.all_clients_state.get_unlocked_client_mut_or_create c with
      | error e2 => simp [handle_engine_event, hres, hg]
      | ok p =>
        rcases p with ⟨m, client⟩
        simp [handle_engine_event, hres, hg]
  | Withdrawal t c a =>
    rcases hres : Transaction.new s.seen_txids t (.Withdrawal a) with
      ⟨seen', r⟩
    cases r with
    | error e2 => simp [handle_engine_event, hres]
    | ok tx =>
      cases hg : s.all_clients_state.get_unlocked_client_mut_or_create c with
      | error e2 => simp [handle_engine_event, hres, hg]
      | ok p =>
        rcases p with ⟨m, client⟩
        rcases hw : client.withdraw tx with ⟨c2, r2⟩
        cases r2 <;> simp [handle_engine_event, hres, hg, hw]
  | Dispute t c =>
    cases hg : s.all_clients_state.get_unlocked_client_mut c with
    | error e2 => simp [handle_engine_event, hg]
    | ok o =>
      cases o with
      | none => simp [handle_engine_event, hg]
      | some client =>
        rcases hres : client.dispute_transaction t with ⟨c2, r⟩
        cases r <;> simp [handle_engine_event, hg, hres]
  | Resolve t c =>
    cases hg : s.all_clients_state.get_unlocked_client_mut c with
    | error e2 => simp [handle_engine_event, hg]
    | ok o =>
      cases o with
      | none => simp [handle_engine_event, hg]
      | some client =>
        rcases hres : client.resolve_transaction t with ⟨c2, r⟩
        cases r <;> simp [handle_engine_event, hg, hres]
  | Chargeback t c =>
    cases hg : s.all_clients_state.get_unlocked_client_mut c with
    | error e2 => simp [handle_engine_event, hg]
    | ok o =>
      cases o with
      | none => simp [handle_engine_event, hg]
      | some client =>
        rcases hres : client.chargeback_transaction t with ⟨c2, r⟩
        cases r <;> simp [handle_engine_event, hg, hres]

theorem runEvents_cons (s : EngineState) (e : EngineEvent)
    (es : List EngineEvent) (hne : e ≠ .Exit) :
    runEvents s (e :: es) = runEvents (handle_engine_event s e).1 es := by
  have h := handle_not_exit s e hne
  rcases hres : handle_engine_event s e with ⟨s2, r⟩
  rw [hres] at h
  cases r with
  | error e2 => simp [runEvents, hres]
  | ok o =>
    cases o with
    | Continue => simp [runEvents, hres]
    | Exit => exact absurd rfl h

theorem runEvents_append (es1 es2 : List EngineEvent) (s : EngineState)
    (h : EngineEvent.Exit ∉ es1) :
    runEvents s (es1 ++ es2) = runEvents (runEvents s es1) es2 := by
  induction es1 generalizing s with
  | nil => rfl
  | cons e es ih =>
    rw [List.mem_cons, not_or] at h
    have hne : e ≠ .Exit := fun hx => h.1 hx.symm
    rw [List.cons_append, runEvents_cons _ _ _ hne, runEvents_cons _ _ _ hne]
    exact ih _ h.2

theorem runEvents_seen_preserve (es : List EngineEvent) (s : EngineState)
    (t : TransactionId) (h : s.seen_txids t = true) :
    (runEvents s es).seen_txids t = true := by
  induction es generalizing s with
  | nil => exact h
  | cons e es ih =>
    have h2 := handle_seen_preserve s e t h
    rcases hres : handle_engine_event s e with ⟨s2, r⟩
    rw [hres] at h2
    cases r with
    | error e2 =>
      have : runEvents s (e :: es) = runEvents s2 es := by
        simp [runEvents, hres]
      rw [this]
      exact ih s2 h2
    | ok o =>
      cases o with
      | Continue =>
        have : runEvents s (e :: es) = runEvents s2 es := by
          simp [runEvents, hres]
        rw [this]
        exact ih s2 h2
      | Exit =>
        have : runEvents s (e :: es) = s2 := by
          simp [runEvents, hres]
        rw [this]
        exact h2

/-! ## C5: global uniqueness of transaction ids -/

/-- C5: once a transaction id `t` has been used by a Deposit or Withdrawal
event `ev` in the processed sequence, any later Deposit or Withdrawal
carrying `t` (for any client) is rejected with `TxAlreadySeen` and leaves the
whole engine state — in particular every client's available and held balances
— unchanged. -/
theorem txid_never_reused (es1 es2 : List EngineEvent) (ev e2 : EngineEvent)
    (t : TransactionId) (hex : EngineEvent.Exit ∉ es1)
    (hev : depositWithdrawalTxid ev = some t)
    (he2 : depositWithdrawalTxid e2 = some t) :
    handle_engine_event (runEvents initialState (es1 ++ ev :: es2)) e2 =
      (runEvents initialState (es1 ++ ev :: es2),
        .error (.TxAlreadySeen t)) := by
  have hev_ne : ev ≠ .Exit := by
    intro hx
    rw [hx] at hev
    simp [depositWithdrawalTxid] at hev
  have hseen :
      (runEvents initialState (es1 ++ ev :: es2)).seen_txids t = true := by
    rw [runEvents_append es1 (ev :: es2) initialState hex,
      runEvents_cons _ _ _ hev_ne]
    exact runEvents_seen_preserve es2 _ t
      (handle_sets_seen _ ev t hev)
  exact handle_dup_rejected _ e2 t he2 hseen

/-- Witness: Deposit(tx=1, client=1) followed by a Withdrawal reusing id 1
for a different client is rejected with `TxAlreadySeen` and the state is
unchanged. -/
theorem txid_never_reused_witness :
    handle_engine_event
        (runEvents initialState ([] ++ EngineEvent.Deposit 1 1 5 :: []))
        (.Withdrawal 1 2 3) =
      (runEvents initialState ([] ++ EngineEvent.Deposit 1 1 5 :: []),
        .error (.TxAlreadySeen 1)) :=
  txid_never_reused [] [] (.Deposit 1 1 5) (.Withdrawal 1 2 3) 1
    (by simp) rfl rfl

/-! ## C10: rejected events still consume their transaction id -/

/-- C10: a Deposit or Withdrawal event `e0` carrying a fresh id `t` against an
existing locked account is rejected with `ClientLocked` and changes no
client's state, yet registers `t` in the seen set; afterwards, following any
further events `es`, a Deposit or Withdrawal `e2` reusing `t` for any client
is rejected with `TxAlreadySeen` and also leaves every client unchanged. -/
theorem locked_rejection_consumes_id (s : EngineState) (cid : ClientId)
    (cs : ClientState) (t : TransactionId) (e0 e2 : EngineEvent)
    (es : List EngineEvent) (hc : s.all_clients_state cid = some cs)
    (hl : cs.locked = true) (hfresh : s.seen_txids t = false)
    (he0 : depositWithdrawalTxid e0 = some t)
    (hcl0 : eventClient e0 = some cid)
    (he2 : depositWithdrawalTxid e2 = some t) :
    (handle_engine_event s e0).2 = .error (.ClientLocked cid) ∧
    (handle_engine_event s e0).1.all_clients_state = s.all_clients_state ∧
    (handle_engine_event s e0).1.seen_txids t = true ∧
    handle_engine_event (runEvents (handle_engine_event s e0).1 es) e2 =
      (runEvents (handle_engine_event s e0).1 es,
        .error (.TxAlreadySeen t)) := by
  have h1 : (handle_engine_event s e0).2 = .error (.ClientLocked cid) ∧
      (handle_engine_event s e0).1.all_clients_state =
        s.all_clients_state := by
    cases e0 with
    | Deposit t2 c2 a =>
      simp only [depositWithdrawalTxid, Option.some.injEq] at he0
      simp only [eventClient, Option.some.injEq] at hcl0
      subst he0
      subst hcl0
      simp [handle_engine_event, Transaction.new_of_fresh _ hfresh,
        AllClientsState.get_unlocked_client_mut_or_create, hc, hl]
    | Withdrawal t2 c2 a =>
      simp only [depositWithdrawalTxid, Option.some.injEq] at he0
      simp only [eventClient, Option.some.injEq] at hcl0
      subst he0
      subst hcl0
      simp [handle_engine_event, Transaction.new_of_fresh _ hfresh,
        AllClientsState.get_unlocked_client_mut_or_create, hc, hl]
    | Dispute t2 c2 => simp [depositWithdrawalTxid] at he0
    | Resolve t2 c2 => simp [depositWithdrawalTxid] at he0
    | Chargeback t2 c2 => simp [depositWithdrawalTxid] at he0
    | Exit => simp [depositWithdrawalTxid] at he0
  have h2 : (handle_engine_event s e0).1.seen_txids t = true :=
    handle_sets_seen s e0 t he0
  have h3 : (runEvents (handle_engine_event s e0).1 es).seen_txids t = true :=
    runEvents_seen_preserve es _ t h2
  exact ⟨h1.1, h1.2, h2, handle_dup_rejected _ e2 t he2 h3⟩

/-- Witness: against the concrete locked state, Deposit(tx=3, client=1) fails
with `ClientLocked` but consumes id 3; a Withdrawal reusing id 3 for client 2
is then rejected with `TxAlreadySeen`. -/
theorem locked_rejection_consumes_id_witness :
    (handle_engine_event lockedEngineState (.Deposit 3 1 5)).2 =
      .error (.ClientLocked 1) ∧
    (handle_engine_event lockedEngineState
      (.Deposit 3 1 5)).1.all_clients_state =
      lockedEngineState.all_clients_state ∧
    (handle_engine_event lockedEngineState (.Deposit 3 1 5)).1.seen_txids 3 =
      true ∧
    handle_engine_event
        (runEvents (handle_engine_event lockedEngineState
          (.Deposit 3 1 5)).1 []) (.Withdrawal 3 2 7) =
      (runEvents (handle_engine_event lockedEngineState (.Deposit 3 1 5)).1 [],
        .error (.TxAlreadySeen 3)) :=
  locked_rejection_consumes_id lockedEngineState 1 lockedClientState 3
    (.Deposit 3 1 5) (.Withdrawal 3 2 7) [] rfl rfl rfl rfl rfl rfl

/-! ## Characterization of clients-map updates, and the C3 invariant -/

theorem txInsert_mem (m : TxLookup) (t0 t2 : TransactionId) (v : Transaction)
    (h : txInsert m t0 v t2 ≠ none) : t2 = t0 ∨ m t2 ≠ none := by
  by_cases he : t2 = t0
  · exact Or.inl he
  · right
    rw [txInsert_ne _ _ _ he] at h
    exact h

theorem txInsert_preserve (m : TxLookup) (t0 : TransactionId)
    (v : Transaction) {t : TransactionId} (h : m t ≠ none) :
    txInsert m t0 v t ≠ none := by
  by_cases he : t = t0
  · subst he
    rw [txInsert_eq]
    simp
  · rw [txInsert_ne _ _ _ he]
    exact h

theorem withdraw_tx_lookup_shape (c : ClientState) (tx : Transaction) :
    ((c.withdraw tx).1).tx_lookup = c.tx_lookup ∨
    ((c.withdraw tx).1).tx_lookup = txInsert c.tx_lookup tx.txid tx := by
  by_cases hlt : c.available < tx.amount
  · left
    simp [ClientState.withdraw, hlt]
  · right
    simp [ClientState.withdraw, hlt]

theorem dispute_tx_lookup_shape (c : ClientState) (t0 : TransactionId) :
    ((c.dispute_transaction t0).1).tx_lookup = c.tx_lookup ∨
    ∃ tx2, c.tx_lookup t0 ≠ none ∧
      ((c.dispute_transaction t0).1).tx_lookup =
        txInsert c.tx_lookup t0 tx2 := by
  cases hlook : c.tx_lookup t0 with
  | none =>
    left
    simp [ClientState.dispute_transaction, hlook]
  | some tx =>
    cases hm : tx.mark_disputed with
    | error e =>
      left
      simp [ClientState.dispute_transaction, hlook, hm]
    | ok tx2 =>
      right
      refine ⟨tx2, by simp [hlook], ?_⟩
      cases hk : tx2.kind <;>
        simp [ClientState.dispute_transaction, hlook, hm, hk]

theorem resolve_tx_lookup_shape (c : ClientState) (t0 : TransactionId) :
    ((c.resolve_transaction t0).1).tx_lookup = c.tx_lookup ∨
    ∃ tx2, c.tx_lookup t0 ≠ none ∧
      ((c.resolve_transaction t0).1).tx_lookup =
        txInsert c.tx_lookup t0 tx2 := by
  cases hlook : c.tx_lookup t0 with
  | none =>
    left
    simp [ClientState.resolve_transaction, hlook]
  | some tx =>
    cases hm : tx.mark_resolved with
    | error e =>
      left
      simp [ClientState.resolve_transaction, hlook, hm]
    | ok tx2 =>
      right
      refine ⟨tx2, by simp [hlook], ?_⟩
      cases hk : tx2.kind with
      | Deposit amt =>
        by_cases hheld : c.held < amt <;>
          simp [ClientState.resolve_transaction, hlook, hm, hk, hheld]
      | Withdrawal amt =>
        simp [ClientState.resolve_transaction, hlook, hm, hk]

theorem chargeback_tx_lookup_shape (c : ClientState) (t0 : TransactionId) :
    ((c.chargeback_transaction t0).1).tx_lookup = c.tx_lookup ∨
    ∃ tx2, c.tx_lookup t0 ≠ none ∧
      ((c.chargeback_transaction t0).1).tx_lookup =
        txInsert c.tx_lookup t0 tx2 := by
  cases hlook : c.tx_lookup t0 with
  | none =>
    left
    simp [ClientState.chargeback_transaction, hlook]
  | some tx =>
    cases hm : tx.mark_chargedback with
    | error e =>
      left
      simp [ClientState.chargeback_transaction, hlook, hm]
    | ok tx2 =>
      right
      refine ⟨tx2, by simp [hlook], ?_⟩
      cases hk : tx2.kind with
      | Deposit amt =>
        by_cases hheld : c.held < amt <;>
          simp [ClientState.chargeback_transaction, hlook, hm, hk, hheld]
      | Withdrawal amt =>
        simp [ClientState.chargeback_transaction, hlook, hm, hk]

/-- Characterization: an event leaves a given client's map entry unchanged,
or (for Deposit/Withdrawal with a fresh id) applies `deposit`/`withdraw` to
the existing unlocked or freshly created client, or (for the dispute family)
applies the corresponding account operation to the existing unlocked
client. -/
theorem handle_clients_cases (s : EngineState) (e : EngineEvent)
    (x : ClientId) :
    (handle_engine_event s e).1.all_clients_state x =
      s.all_clients_state x ∨
    (∃ t0 k c0, depositWithdrawalTxid e = some t0 ∧
      (s.all_clients_state x = some c0 ∧ c0.locked = false ∨
        s.all_clients_state x = none ∧ c0 = emptyClient) ∧
      ((handle_engine_event s e).1.all_clients_state x =
          some (c0.deposit { txid := t0, kind := k, state := .Normal }) ∨
        (handle_engine_event s e).1.all_clients_state x =
          some ((c0.withdraw
            { txid := t0, kind := k, state := .Normal }).1))) ∨
    (∃ t0 c0, s.all_clients_state x = some c0 ∧ c0.locked = false ∧
      ((handle_engine_event s e).1.all_clients_state x =
          some ((c0.dispute_transaction t0).1) ∨
        (handle_engine_event s e).1.all_clients_state x =
          some ((c0.resolve_transaction t0).1) ∨
        (handle_engine_event s e).1.all_clients_state x =
          some ((c0.chargeback_transaction t0).1))) := by
  cases e with
  | Exit => exact Or.inl (by simp [handle_engine_event])
  | Deposit t0 c2 a =>
    cases hseen : s.seen_txids t0 with
    | true =>
      exact Or.inl (by
        simp [handle_engine_event, Transaction.new_of_seen _ hseen])
    | false =>
      cases hg : s.all_clients_state c2 with
      | some c =>
        by_cases hcl : c.locked
        · exact Or.inl (by
            simp [handle_engine_event, Transaction.new_of_fresh _ hseen,
              AllClientsState.get_unlocked_client_mut_or_create, hg, hcl])
        · by_cases hx : x = c2
          · subst hx
            refine Or.inr (Or.inl ⟨t0, .Deposit a, c, rfl,
              Or.inl ⟨hg, by simpa using hcl⟩, Or.inl ?_⟩)
            simp [handle_engine_event, Transaction.new_of_fresh _ hseen,
              AllClientsState.get_unlocked_client_mut_or_create, hg, hcl,
              clientInsert_eq]
          · exact Or.inl (by
              simp [handle_engine_event, Transaction.new_of_fresh _ hseen,
                AllClientsState.get_unlocked_client_mut_or_create, hg, hcl,
                clientInsert_ne _ _ _ hx])
      | none =>
        by_cases hx : x = c2
        · subst hx
          refine Or.inr (Or.inl ⟨t0, .Deposit a, emptyClient, rfl,
            Or.inr ⟨hg, rfl⟩, Or.inl ?_⟩)
          simp [handle_engine_event, Transaction.new_of_fresh _ hseen,
            AllClientsState.get_unlocked_client_mut_or_create, hg,
            clientInsert_eq]
        · exact Or.inl (by
            simp [handle_engine_event, Transaction.new_of_fresh _ hseen,
              AllClientsState.get_unlocked_client_mut_or_create, hg,
              clientInsert_ne _ _ _ hx])
  | Withdrawal t0 c2 a =>
    cases hseen : s.seen_txids t0 with
    | true =>
      exact Or.inl (by
        simp [handle_engine_event, Transaction.new_of_seen _ hseen])
    | false =>
      cases hg : s.all_clients_state c2 with
      | some c =>
        by_cases hcl : c.locked
        · exact Or.inl (by
            simp [handle_engine_event, Transaction.new_of_fresh _ hseen,
              AllClientsState.get_unlocked_client_mut_or_create, hg, hcl])
        · rcases hw : c.withdraw
              { txid := t0, kind := .Withdrawal a, state := .Normal } with
            ⟨c3, r⟩
          by_cases hx : x = c2
          · subst hx
            refine Or.inr (Or.inl ⟨t0, .Withdrawal a, c, rfl,
              Or.inl ⟨hg, by simpa using hcl⟩, Or.inr ?_⟩)
            rw [hw]
            cases r <;>
              simp [handle_engine_event, Transaction.new_of_fresh _ hseen,
                AllClientsState.get_unlocked_client_mut_or_create, hg, hcl,
                hw, clientInsert_eq]
          · refine Or.inl ?_
            cases r <;>
              simp [handle_engine_event, Transaction.new_of_fresh _ hseen,
                AllClientsState.get_unlocked_client_mut_or_create, hg, hcl,
                hw, clientInsert_ne _ _ _ hx]
      | none =>
        rcases hw : emptyClient.withdraw
            { txid := t0, kind := .Withdrawal a, state := .Normal } with
          ⟨c3, r⟩
        by_cases hx : x = c2
        · subst hx
          refine Or.inr (Or.inl ⟨t0, .Withdrawal a, emptyClient, rfl,
            Or.inr ⟨hg, rfl⟩, Or.inr ?_⟩)
          rw [hw]
          cases r <;>
            simp [handle_engine_event, Transaction.new_of_fresh _ hseen,
              AllClientsState.get_unlocked_client_mut_or_create, hg, hw,
              clientInsert_eq]
        · refine Or.inl ?_
          cases r <;>
            simp [handle_engine_event, Transaction.new_of_fresh _ hseen,
              AllClientsState.get_unlocked_client_mut_or_create, hg, hw,
              clientInsert_ne _ _ _ hx]
  | Dispute t0 c2 =>
    cases hg : s.all_clients_state c2 with
    | none =>
      exact Or.inl (by
        simp [handle_engine_event, AllClientsState.get_unlocked_client_mut,
          hg])
    | some c =>
      by_cases hcl : c.locked
      · exact Or.inl (by
          simp [handle_engine_event, AllClientsState.get_unlocked_client_mut,
            hg, hcl])
      · rcases hres : c.dispute_transaction t0 with ⟨c3, r⟩
        by_cases hx : x = c2
        · subst hx
          refine Or.inr (Or.inr ⟨t0, c, hg, by simpa using hcl, Or.inl ?_⟩)
          rw [hres]
          cases r <;>
            simp [handle_engine_event,
              AllClientsState.get_unlocked_client_mut, hg, hcl, hres,
              clientInsert_eq]
        · refine Or.inl ?_
          cases r <;>
            simp [handle_engine_event,
              AllClientsState.get_unlocked_client_mut, hg, hcl, hres,
              clientInsert_ne _ _ _ hx]
  | Resolve t0 c2 =>
    cases hg : s.all_clients_state c2 with
    | none =>
      exact Or.inl (by
        simp [handle_engine_event, AllClientsState.get_unlocked_client_mut,
          hg])
    | some c =>
      by_cases hcl : c.locked
      · exact Or.inl (by
          simp [handle_engine_event, AllClientsState.get_unlocked_client_mut,
            hg, hcl])
      · rcases hres : c.resolve_transaction t0 with ⟨c3, r⟩
        by_cases hx : x = c2
        · subst hx
          refine Or.inr (Or.inr ⟨t0, c, hg, by simpa using hcl,
            Or.inr (Or.inl ?_)⟩)
          rw [hres]
          cases r <;>
            simp [handle_engine_event,
              AllClientsState.get_unlocked_client_mut, hg, hcl, hres,
              clientInsert_eq]
        · refine Or.inl ?_
          cases r <;>
            simp [handle_engine_event,
              AllClientsState.get_unlocked_client_mut, hg, hcl, hres,
              clientInsert_ne _ _ _ hx]
  | Chargeback t0 c2 =>
    cases hg : s.all_clients_state c2 with
    | none =>
      exact Or.inl (by
        simp [handle_engine_event, AllClientsState.get_unlocked_client_mut,
          hg])
    | some c =>
      by_cases hcl : c.locked
      · exact Or.inl (by
          simp [handle_engine_event, AllClientsState.get_unlocked_client_mut,
            hg, hcl])
      · rcases hres : c.chargeback_transaction t0 with ⟨c3, r⟩
        by_cases hx : x = c2
        · subst hx
          refine Or.inr (Or.inr ⟨t0, c, hg, by simpa using hcl,
            Or.inr (Or.inr ?_)⟩)
          rw [hres]
          cases r <;>
            simp [handle_engine_event,
              AllClientsState.get_unlocked_client_mut, hg, hcl, hres,
              clientInsert_eq]
        · refine Or.inl ?_
          cases r <;>
            simp [handle_engine_event,
              AllClientsState.get_unlocked_client_mut, hg, hcl, hres,
              clientInsert_ne _ _ _ hx]

theorem entriesSubsetSeen_step (s : EngineState) (e : EngineEvent)
    (hinv : entriesSubsetSeen s) :
    entriesSubsetSeen (handle_engine_event s e).1 := by
  intro cid2 cs2 t2 hc2 ht2
  rcases handle_clients_cases s e cid2 with hsame |
    ⟨t0, k, c0, he, hold, hup⟩ | ⟨t0, c0, hc0, hl0, hup⟩
  · rw [hsame] at hc2
    exact handle_seen_preserve s e t2 (hinv _ _ _ hc2 ht2)
  · have hc0ent : c0.tx_lookup t2 ≠ none → s.seen_txids t2 = true := by
      intro hent
      rcases hold with ⟨hsome, _⟩ | ⟨_, hempty⟩
      · exact hinv _ _ _ hsome hent
      · rw [hempty] at hent
        simp [emptyClient] at hent
    rcases hup with hdep | hwd
    · rw [hdep] at hc2
      have hcs : cs2 = c0.deposit { txid := t0, kind := k, state := .Normal } :=
        (Option.some.inj hc2).symm
      subst hcs
      rcases txInsert_mem _ _ _ _
          (by simpa [ClientState.deposit] using ht2) with heq | hm
      · rw [heq]
        exact handle_sets_seen s e t0 he
      · exact handle_seen_preserve s e t2 (hc0ent hm)
    · rw [hwd] at hc2
      have hcs : cs2 = (c0.withdraw
          { txid := t0, kind := k, state := .Normal }).1 :=
        (Option.some.inj hc2).symm
      subst hcs
      rcases withdraw_tx_lookup_shape c0
          { txid := t0, kind := k, state := .Normal } with hs | hs
      · rw [hs] at ht2
        exact handle_seen_preserve s e t2 (hc0ent ht2)
      · rw [hs] at ht2
        rcases txInsert_mem _ _ _ _ ht2 with heq | hm
        · rw [heq]
          exact handle_sets_seen s e t0 he
        · exact handle_seen_preserve s e t2 (hc0ent hm)
  · have hstep : ∀ c2 : ClientState,
        ((handle_engine_event s e).1.all_clients_state cid2 = some c2) →
        cs2 = c2 → (c2.tx_lookup = c0.tx_lookup ∨
          ∃ tx2, c0.tx_lookup t0 ≠ none ∧
            c2.tx_lookup = txInsert c0.tx_lookup t0 tx2) →
        s.seen_txids t2 = true := by
      intro c2 hcc heq hshape
      subst heq
      rcases hshape with hs | ⟨tx2, ht0, hs⟩
      · rw [hs] at ht2
        exact hinv _ _ _ hc0 ht2
      · rw [hs] at ht2
        rcases txInsert_mem _ _ _ _ ht2 with heq2 | hm
        · rw [heq2]
          exact hinv _ _ _ hc0 ht0
        · exact hinv _ _ _ hc0 hm
    rcases hup with h1 | h1 | h1
    · exact handle_seen_preserve s e t2
        (hstep _ h1 (Option.some.inj (h1.symm.trans hc2)).symm
          (dispute_tx_lookup_shape c0 t0))
    · exact handle_seen_preserve s e t2
        (hstep _ h1 (Option.some.inj (h1.symm.trans hc2)).symm
          (resolve_tx_lookup_shape c0 t0))
    · exact handle_seen_preserve s e t2
        (hstep _ h1 (Option.some.inj (h1.symm.trans hc2)).symm
          (chargeback_tx_lookup_shape c0 t0))

theorem entriesSubsetSeen_initial : entriesSubsetSeen initialState := by
  intro cid cs t hc
  simp [initialState] at hc

theorem entriesSubsetSeen_run (es : List EngineEvent) (s : EngineState)
    (h : entriesSubsetSeen s) : entriesSubsetSeen (runEvents s es) := by
  induction es generalizing s with
  | nil => exact h
  | cons e es ih =>
    have h2 := entriesSubsetSeen_step s e h
    rcases hres : handle_engine_event s e with ⟨s2, r⟩
    rw [hres] at h2
    cases r with
    | error e2 =>
      rw [show runEvents s (e :: es) = runEvents s2 es from by
        simp [runEvents, hres]]
      exact ih s2 h2
    | ok o =>
      cases o with
      | Continue =>
        rw [show runEvents s (e :: es) = runEvents s2 es from by
          simp [runEvents, hres]]
        exact ih s2 h2
      | Exit =>
        rw [show runEvents s (e :: es) = s2 from by simp [runEvents, hres]]
        exact h2

theorem handle_entry_preserved (s : EngineState) (e : EngineEvent)
    (cid : ClientId) (cs : ClientState) (t : TransactionId)
    (hc : s.all_clients_state cid = some cs) (ht : cs.tx_lookup t ≠ none) :
    ∃ cs2, (handle_engine_event s e).1.all_clients_state cid = some cs2 ∧
      cs2.tx_lookup t ≠ none := by
  rcases handle_clients_cases s e cid with hsame |
    ⟨t0, k, c0, he, hold, hup⟩ | ⟨t0, c0, hc0, hl0, hup⟩
  · exact ⟨cs, by rw [hsame, hc], ht⟩
  · obtain rfl : c0 = cs := by
      rcases hold with ⟨hsome, _⟩ | ⟨hnone, _⟩
      · exact Option.some.inj (hsome.symm.trans hc)
      · rw [hnone] at hc
        exact absurd hc (by simp)
    rcases hup with hdep | hwd
    · refine ⟨_, hdep, ?_⟩
      simp only [ClientState.deposit]
      exact txInsert_preserve _ _ _ ht
    · refine ⟨_, hwd, ?_⟩
      rcases withdraw_tx_lookup_shape c0
          { txid := t0, kind := k, state := .Normal } with hs | hs
      · rw [hs]
        exact ht
      · rw [hs]
        exact txInsert_preserve _ _ _ ht
  · obtain rfl : c0 = cs := Option.some.inj (hc0.symm.trans hc)
    rcases hup with h1 | h1 | h1
    · refine ⟨_, h1, ?_⟩
      rcases dispute_tx_lookup_shape c0 t0 with hs | ⟨tx2, _, hs⟩
      · rw [hs]
        exact ht
      · rw [hs]
        exact txInsert_preserve _ _ _ ht
    · refine ⟨_, h1, ?_⟩
      rcases resolve_tx_lookup_shape c0 t0 with hs | ⟨tx2, _, hs⟩
      · rw [hs]
        exact ht
      · rw [hs]
        exact txInsert_preserve _ _ _ ht
    · refine ⟨_, h1, ?_⟩
      rcases chargeback_tx_lookup_shape c0 t0 with hs | ⟨tx2, _, hs⟩
      · rw [hs]
        exact ht
      · rw [hs]
        exact txInsert_preserve _ _ _ ht

/-- C3 (amended): in every state reachable from the initial engine state,
every id present in some account's entry map is in the seen set; the seen set
never loses an id across a step, and no account's entry is ever removed.  The
converse inclusion of the claim (every seen id is in some entry map) is false:
see the counterexample. -/
theorem seen_superset_of_entries (es : List EngineEvent) (s : EngineState)
    (e : EngineEvent) (t : TransactionId) (cid : ClientId)
    (cs : ClientState) :
    (∀ cid2 cs2 t2,
      (runEvents initialState es).all_clients_state cid2 = some cs2 →
      cs2.tx_lookup t2 ≠ none →
      (runEvents initialState es).seen_txids t2 = true) ∧
    (s.seen_txids t = true →
      (handle_engine_event s e).1.seen_txids t = true) ∧
    (s.all_clients_state cid = some cs → cs.tx_lookup t ≠ none →
      ∃ cs2,
        (handle_engine_event s e).1.all_clients_state cid = some cs2 ∧
        cs2.tx_lookup t ≠ none) :=
  ⟨fun cid2 cs2 t2 =>
      entriesSubsetSeen_run es initialState entriesSubsetSeen_initial
        cid2 cs2 t2,
    handle_seen_preserve s e t,
    fun hc ht => handle_entry_preserved s e cid cs t hc ht⟩

/-- Counterexample to C3 as stated: after a single rejected
Withdrawal(tx=1, client=1, amt=5), id 1 is in the seen set but appears in no
account's entry map (client 1 exists with an empty map, and no other account
exists). -/
theorem seen_entry_maps_mismatch_cex :
    (runEvents initialState [.Withdrawal 1 1 5]).seen_txids 1 = true ∧
    Option.map (fun c => c.tx_lookup 1)
      ((runEvents initialState [.Withdrawal 1 1 5]).all_clients_state 1) =
      some none ∧
    (∀ cid, cid ≠ 1 →
      (runEvents initialState [.Withdrawal 1 1 5]).all_clients_state cid =
        none) := by
  refine ⟨by decide, by decide, ?_⟩
  intro cid hcid
  have hmap : (runEvents initialState [.Withdrawal 1 1 5]).all_clients_state =
      clientInsert (clientInsert (fun _ => none) 1 emptyClient) 1
        emptyClient := rfl
  rw [hmap, clientInsert_ne _ _ _ hcid, clientInsert_ne _ _ _ hcid]

/-- Witness for the seen-superset theorem after Deposit(tx=1, client=1). -/
theorem seen_superset_of_entries_witness :
    (runEvents initialState [.Deposit 1 1 10]).seen_txids 1 = true ∧
    (handle_engine_event (runEvents initialState [.Deposit 1 1 10])
      (.Deposit 2 1 5)).1.seen_txids 1 = true ∧
    (∃ cs2, (handle_engine_event (runEvents initialState [.Deposit 1 1 10])
        (.Deposit 2 1 5)).1.all_clients_state 1 = some cs2 ∧
      cs2.tx_lookup 1 ≠ none) := by
  have h := seen_superset_of_entries [.Deposit 1 1 10]
    (runEvents initialState [.Deposit 1 1 10]) (.Deposit 2 1 5) 1 1
    (emptyClient.deposit ⟨1, .Deposit 10, .Normal⟩)
  exact ⟨h.1 1 (emptyClient.deposit ⟨1, .Deposit 10, .Normal⟩) 1 rfl
      (by decide),
    h.2.1 (by decide), h.2.2 rfl (by decide)⟩

end ToyPayments
